import Mathlib

/-!
Verification model of `channels_graphql_ws/dict_as_object.py`.

The file wraps a Channels connection scope (a Python dict) so its keys can
be accessed as attributes, and re-implements a few Django request methods
(`build_meta`, `build_absolute_uri`, `get_full_path`, `get_host`, ...).

Modelling conventions:
* Python strings are `Str := List Char`; Python bytes are `List Nat`.
* Python dicts are association lists (`Dict`).  Because the wrapper is
  mutating and, through `__init__`, even creates a self-referential entry
  (`scope["_scope"] = scope`), dicts live in an explicit heap of cells and
  may hold references (`PyVal.vref`) to other cells.  A `DictAsObject`
  instance is its `_scope` instance attribute (a heap address) together
  with the other instance attributes written by `super().__setattr__`.
* Fallible Python code (KeyError, AttributeError, DisallowedHost, ...)
  is modelled with `Option` / `Except`.
* External Django / urllib helpers used by the file (`urlsplit`, `urljoin`,
  `iri_to_uri`, `escape_uri_path`, `split_domain_port`, `validate_host`)
  are translated from their CPython / Django sources; Python `str.upper`,
  `str.lower` are modelled on their ASCII behaviour, which is the only
  behaviour the wrapped HTTP data exercises.
-/

namespace DictAsObjectModel

/-- Python strings, modelled as lists of characters. -/
abbrev Str := List Char

/-- Python values stored in the connection scope and in `META`. -/
inductive PyVal where
  /-- A Python `str`. -/
  | vstr (s : Str)
  /-- A Python `bytes` value, one `Nat` per byte. -/
  | vbytes (b : List Nat)
  /-- A reference to a dict living in the heap. -/
  | vref (a : Nat)
  /-- A list of `(bytes, bytes)` pairs, the ASGI `headers` value. -/
  | vheaders (hs : List (List Nat × List Nat))
  deriving DecidableEq, Repr

/-- A Python dict with string keys, as an association list (first hit wins,
mirroring the unique-key invariant of a real dict). -/
abbrev Dict := List (Str × PyVal)

/-- `d[k]`, as an `Option`. -/
def dictLookup (d : Dict) (k : Str) : Option PyVal :=
  match d with
  | [] => none
  | (k2, v2) :: rest => if k2 = k then some v2 else dictLookup rest k

/-- `d[k] = v`: replace the binding in place, or append a new one (matching
Python dict insertion-order semantics). -/
def dictInsert (d : Dict) (k : Str) (v : PyVal) : Dict :=
  match d with
  | [] => [(k, v)]
  | (k2, v2) :: rest => if k2 = k then (k, v) :: rest else (k2, v2) :: dictInsert rest k v

/-- `del d[k]`; `none` models the `KeyError` raised when `k` is absent. -/
def dictErase (d : Dict) (k : Str) : Option Dict :=
  match d with
  | [] => none
  | (k2, v2) :: rest =>
    if k2 = k then some rest else (dictErase rest k).map (fun r => (k2, v2) :: r)

/-- The heap of dict cells; a `PyVal.vref a` points at `cells[a]`. -/
structure Heap where
  cells : List Dict
  deriving DecidableEq, Repr

/-- Dereference an address (addresses produced by `Heap.alloc` are always
in range; out-of-range reads default to the empty dict). -/
def Heap.getD (h : Heap) (a : Nat) : Dict :=
  (h.cells[a]?).getD []

/-- Overwrite the cell at address `a`. -/
def Heap.set (h : Heap) (a : Nat) (d : Dict) : Heap :=
  ⟨h.cells.set a d⟩

/-- Allocate a fresh cell, returning the new heap and the new address. -/
def Heap.alloc (h : Heap) (d : Dict) : Heap × Nat :=
  (⟨h.cells ++ [d]⟩, h.cells.length)

/-- `heap[a][k] = v`: mutate one key of the dict stored at address `a`. -/
def heapSetKey (h : Heap) (a : Nat) (k : Str) (v : PyVal) : Heap :=
  h.set a (dictInsert (h.getD a) k v)

/-- A `DictAsObject` instance: the `_scope` instance attribute (address of
the wrapped dict) plus the remaining instance attributes that
`super().__setattr__` has written. -/
structure DictAsObject where
  scope : Nat
  idict : Dict
  deriving DecidableEq, Repr

/-- Result of an attribute read: a value, an `AttributeError`, or a
`TypeError` (subscripting a non-dict fallback). -/
inductive LookupResult where
  | found (v : PyVal)
  | attrError
  | typeError
  deriving DecidableEq, Repr

/-- `DictAsObject.__getattr__` (dict_as_object.py lines 43-53): names that
start with an underscore raise `AttributeError`; otherwise the primary
mapping is consulted, then the mapping stored under `channels_scope`, and
`AttributeError` is raised if both lookups miss.  Subscripting a
non-mapping `channels_scope` value raises `TypeError` in Python, which is
not caught by the `except KeyError` handler. -/
def DictAsObject.getattr (h : Heap) (w : DictAsObject) (name : Str) : LookupResult :=
  if name.head? = some (Char.ofNat 95) then .attrError
  else
    match dictLookup (h.getD w.scope) name with
    | some v => .found v
    | none =>
      match dictLookup (h.getD w.scope) "channels_scope".data with
      | some (.vref b) =>
        match dictLookup (h.getD b) name with
        | some v => .found v
        | none => .attrError
      | some _ => .typeError
      | none => .attrError

/-- `DictAsObject.__setattr__` (lines 55-59).  For an underscore name the
instance attribute is set first; there is no `else`, so control always
falls through to `self._scope[name] = value`.  Reassigning `_scope` itself
redirects the instance to the new mapping before the dict write; a
non-reference value there would make the dict write raise (`none`). -/
def DictAsObject.setattr (h : Heap) (w : DictAsObject) (name : Str) (v : PyVal) :
    Option (Heap × DictAsObject) :=
  if name.head? = some (Char.ofNat 95) then
    if name = "_scope".data then
      match v with
      | .vref b => some (heapSetKey h b name v, { w with scope := b })
      | _ => none
    else
      let w2 : DictAsObject := { w with idict := dictInsert w.idict name v }
      some (heapSetKey h w2.scope name v, w2)
  else
    some (heapSetKey h w.scope name v, w)

/-- `DictAsObject.__init__` (lines 34-36): `self._scope = scope` runs
`__setattr__("_scope", scope)`, which sets the instance attribute and then
falls through to `self._scope["_scope"] = scope`, inserting a
self-referential entry into the caller-provided mapping at address `a`. -/
def DictAsObject.init (h : Heap) (a : Nat) : Heap × DictAsObject :=
  (heapSetKey h a "_scope".data (.vref a),
   { scope := a, idict := [("_scope".data, PyVal.vref a)] })

/-- `DictAsObject._asdict` (lines 38-40): returns the `_scope` instance
attribute, i.e. a reference to the very mapping given at construction. -/
def DictAsObject.asdict (w : DictAsObject) : PyVal :=
  .vref w.scope

/-- `DictAsObject.__getitem__` (lines 62-64). -/
def DictAsObject.getitem (h : Heap) (w : DictAsObject) (k : Str) : Option PyVal :=
  dictLookup (h.getD w.scope) k

/-- `DictAsObject.__setitem__` (lines 66-68). -/
def DictAsObject.setitem (h : Heap) (w : DictAsObject) (k : Str) (v : PyVal) : Heap :=
  heapSetKey h w.scope k v

/-- `DictAsObject.__delitem__` (lines 70-72); `none` is the propagated
`KeyError`. -/
def DictAsObject.delitem (h : Heap) (w : DictAsObject) (k : Str) : Option Heap :=
  (dictErase (h.getD w.scope) k).map (fun d => h.set w.scope d)

/-- `DictAsObject.__contains__` (lines 74-76): membership in the primary
mapping only. -/
def DictAsObject.containsKey (h : Heap) (w : DictAsObject) (k : Str) : Bool :=
  (dictLookup (h.getD w.scope) k).isSome

/-! ### UTF-8 codec (faithful to the strict Python `bytes.decode("utf-8")`
and `str.encode("utf-8")` used by `build_meta` and `urllib.parse.quote`). -/

/-- UTF-8 encoding of one code point, as used by `str.encode("utf-8")`. -/
def utf8EncodeChar (c : Char) : List Nat :=
  let n := c.toNat
  if n < 0x80 then [n]
  else if n < 0x800 then [0xC0 + n / 0x40, 0x80 + n % 0x40]
  else if n < 0x10000 then
    [0xE0 + n / 0x1000, 0x80 + (n / 0x40) % 0x40, 0x80 + n % 0x40]
  else
    [0xF0 + n / 0x40000, 0x80 + (n / 0x1000) % 0x40, 0x80 + (n / 0x40) % 0x40, 0x80 + n % 0x40]

/-- Is `b` a UTF-8 continuation byte? -/
def isContByte (b : Nat) : Bool := 0x80 ≤ b && b ≤ 0xBF

/-- Strict UTF-8 decoding (`bytes.decode("utf-8")`); `none` models the
`UnicodeDecodeError` raised on malformed input (overlong forms, lone or
invalid lead bytes, surrogates, values beyond U+10FFFF). -/
def utf8Decode : List Nat → Option Str
  | [] => some []
  | b :: rest =>
    if b < 0x80 then (utf8Decode rest).map (fun s => Char.ofNat b :: s)
    else if 0xC2 ≤ b && b ≤ 0xDF then
      match rest with
      | b1 :: r =>
        if isContByte b1 then
          (utf8Decode r).map (fun s => Char.ofNat ((b - 0xC0) * 0x40 + (b1 - 0x80)) :: s)
        else none
      | [] => none
    else if 0xE0 ≤ b && b ≤ 0xEF then
      match rest with
      | b1 :: b2 :: r =>
        let lo1 : Nat := if b = 0xE0 then 0xA0 else 0x80
        let hi1 : Nat := if b = 0xED then 0x9F else 0xBF
        if (lo1 ≤ b1 && b1 ≤ hi1) && isContByte b2 then
          (utf8Decode r).map (fun s =>
            Char.ofNat ((b - 0xE0) * 0x1000 + (b1 - 0x80) * 0x40 + (b2 - 0x80)) :: s)
        else none
      | _ => none
    else if 0xF0 ≤ b && b ≤ 0xF4 then
      match rest with
      | b1 :: b2 :: b3 :: r =>
        let lo1 : Nat := if b = 0xF0 then 0x90 else 0x80
        let hi1 : Nat := if b = 0xF4 then 0x8F else 0xBF
        if (lo1 ≤ b1 && b1 ≤ hi1) && isContByte b2 && isContByte b3 then
          (utf8Decode r).map (fun s =>
            Char.ofNat ((b - 0xF0) * 0x40000 + (b1 - 0x80) * 0x1000 +
              (b2 - 0x80) * 0x40 + (b3 - 0x80)) :: s)
        else none
      | _ => none
    else none

/-! ### `urllib.parse.quote` and the two Django wrappers used by the file. -/

/-- The characters `urllib.parse.quote` never encodes
(ASCII letters, digits, and the four unreserved marks). -/
def alwaysSafeChar (c : Char) : Bool :=
  c.isAlpha || c.isDigit || c = Char.ofNat 95 || c = '.' || c = '-' || c = Char.ofNat 126

/-- Uppercase hexadecimal digit, as used by `quote` percent-escapes. -/
def hexUpper (n : Nat) : Char :=
  if n < 10 then Char.ofNat (48 + n) else Char.ofNat (55 + n)

/-- `%XX` escape of one byte. -/
def percentEncodeByte (b : Nat) : Str :=
  [Char.ofNat 37, hexUpper (b / 16), hexUpper (b % 16)]

/-- `urllib.parse.quote` on one character: kept verbatim when safe,
otherwise its UTF-8 bytes are percent-escaped. -/
def quoteChar (safe : Str) (c : Char) : Str :=
  if alwaysSafeChar c || safe.contains c then [c]
  else (utf8EncodeChar c).flatMap percentEncodeByte

/-- `urllib.parse.quote(s, safe)` for the (ASCII) safe sets Django uses. -/
def pyQuote (safe : Str) (s : Str) : Str :=
  s.flatMap (quoteChar safe)

/-- The safe set of `django.utils.encoding.iri_to_uri`,
`/#%[]=:;$&()+,!?*@` plus the apostrophe and the tilde. -/
def iriSafe : Str := "/#%[]=:;$&()+,!?*@".data ++ [Char.ofNat 39, Char.ofNat 126]

/-- `django.utils.encoding.iri_to_uri`: quote with the RFC 3987 safe set. -/
def iri_to_uri (s : Str) : Str := pyQuote iriSafe s

/-- The safe set of `django.utils.encoding.escape_uri_path`,
`/:@&+$,-_.!~*()` plus the apostrophe. -/
def escapeUriPathSafe : Str :=
  "/:@&+$,-".data ++ [Char.ofNat 95] ++ ".!".data ++ [Char.ofNat 126] ++
    "*".data ++ [Char.ofNat 39] ++ "()".data

/-- `django.utils.encoding.escape_uri_path`. -/
def escape_uri_path (s : Str) : Str := pyQuote escapeUriPathSafe s

/-! ### Django host helpers (`django.http.request.split_domain_port`,
`validate_host`, `is_same_domain`), translated from the Django source the
file imports. -/

/-- Characters of the first alternative of the Django
`host_validation_re`: `[a-z0-9.-]`. -/
def hostBodyChar (c : Char) : Bool :=
  (Char.ofNat 97 ≤ c && c ≤ Char.ofNat 122) || c.isDigit || c = '.' || c = '-'

/-- Lower-case hexadecimal digit `[a-f0-9]`. -/
def hexLowerChar (c : Char) : Bool :=
  (Char.ofNat 97 ≤ c && c ≤ Char.ofNat 102) || c.isDigit

/-- Characters of the IPv6 tail class `[a-f0-9.:]`. -/
def hexDotColonChar (c : Char) : Bool :=
  hexLowerChar c || c = '.' || c = ':'

/-- Optional `(:[0-9]+)?` port suffix: either nothing, or a colon followed
by at least one digit. -/
def portSuffixOk : Str → Bool
  | [] => true
  | ':' :: ds => !ds.isEmpty && ds.all Char.isDigit
  | _ => false

/-- Body of a bracketed IPv6 literal, `[a-f0-9]*:[a-f0-9.:]+`: everything
before the first colon is lower hex, and a nonempty well-formed tail
follows it. -/
def ipv6BodyOk (body : Str) : Bool :=
  let pre := body.takeWhile (fun c => !(c = ':'))
  let post := body.drop pre.length
  pre.all hexLowerChar &&
    (match post with
     | ':' :: tl => !tl.isEmpty && tl.all hexDotColonChar
     | _ => false)

/-- the Django `host_validation_re`,
`^([a-z0-9.-]+|\[[a-f0-9]*:[a-f0-9.:]+\])(:[0-9]+)?$`, applied to the
lower-cased host. -/
def hostValidationMatch (cs : Str) : Bool :=
  match cs with
  | '[' :: rest =>
    let body := rest.takeWhile (fun c => !(c = ']'))
    let post := rest.drop body.length
    (match post with
     | ']' :: tl => ipv6BodyOk body && portSuffixOk tl
     | _ => false)
  | _ =>
    let body := cs.takeWhile hostBodyChar
    let post := cs.drop body.length
    !body.isEmpty && portSuffixOk post

/-- Index of the last occurrence of `c`, Python `str.rfind` (as an
`Option`). -/
def lastIdxOf (c : Char) : Str → Option Nat
  | [] => none
  | x :: xs =>
    match lastIdxOf c xs with
    | some i => some (i + 1)
    | none => if x = c then some 0 else none

/-- ASCII-only model of Python `str.lower`. -/
def pyLower (s : Str) : Str := s.map Char.toLower

/-- `django.http.request.split_domain_port`: lower-case the host, reject it
via `host_validation_re`, keep a bracketed IPv6 literal whole, otherwise
split the port at the last colon and strip one trailing dot from the
domain. -/
def split_domain_port (host : Str) : Str × Str :=
  let h := pyLower host
  if !hostValidationMatch h then ([], [])
  else if h.getLast? = some ']' then (h, [])
  else
    let (domain, port) :=
      match lastIdxOf ':' h with
      | some i => (h.take i, h.drop (i + 1))
      | none => (h, [])
    ((if domain.getLast? = some '.' then domain.dropLast else domain), port)

/-- `django.http.request.is_same_domain`: an exact (case-folded) match, or
a leading-dot pattern matching the domain itself or any subdomain. -/
def is_same_domain (host : Str) (pat : Str) : Bool :=
  if pat.isEmpty then false
  else
    let p := pyLower pat
    (p.head? = some '.' && (p.reverse.isPrefixOf host.reverse ||
        host = p.drop 1)) || p = host

/-- `django.http.request.validate_host`: some pattern is `"*"` or matches
per `is_same_domain`. -/
def validate_host (host : Str) (allowed : List Str) : Bool :=
  allowed.any (fun p => p = "*".data || is_same_domain host p)

/-! ### `urllib.parse`: `urlsplit`, `urlparse`, `urlunsplit`, `urlunparse`,
`urljoin`, translated from CPython `Lib/urllib/parse.py`. -/

/-- Python `"sub" in s` on strings. -/
def listSubstr (n : Str) : Str → Bool
  | [] => n.isEmpty
  | c :: cs => n.isPrefixOf (c :: cs) || listSubstr n cs

/-- Does the string start with the given character? -/
def headIs (c : Char) (s : Str) : Bool := s.head? = some c

/-- Python `str.removeprefix("//")` as used on the location string. -/
def dropDoubleSlash (s : Str) : Str :=
  if s.take 2 = ['/', '/'] then s.drop 2 else s

/-- Split at the first occurrence of `c`: the part before it, and
(when `c` occurs) the part after it. -/
def splitAtFirst (c : Char) : Str → Str × Option Str
  | [] => ([], none)
  | x :: xs =>
    if x = c then ([], some xs)
    else
      let (a, b) := splitAtFirst c xs
      (x :: a, b)

/-- Python `str.split(sep)` for a one-character separator. -/
def pySplitOn (c : Char) : Str → List Str
  | [] => [[]]
  | x :: xs =>
    if x = c then [] :: pySplitOn c xs
    else
      match pySplitOn c xs with
      | s :: ss => (x :: s) :: ss
      | [] => [[x]]

/-- CPython `scheme_chars`: letters, digits, and `+-.`. -/
def isSchemeChar (c : Char) : Bool :=
  c.isAlpha || c.isDigit || c = '+' || c = '-' || c = '.'

/-- Does the URL start with an ASCII letter (`url[0].isascii() and
url[0].isalpha()`)? -/
def headIsAsciiAlpha : Str → Bool
  | [] => false
  | c :: _ => c.isAlpha

/-- The scheme-detection step of `urlsplit`: split `scheme:rest` when the
text before the first colon is a wellformed scheme, else keep the whole
URL and fall back to the default scheme. -/
def splitScheme (cs : Str) (d : Str) : Str × Str :=
  match cs.findIdx? (fun c => c = ':') with
  | none => (d, cs)
  | some i =>
    if 0 < i && headIsAsciiAlpha cs && (cs.take i).all isSchemeChar then
      (pyLower (cs.take i), cs.drop (i + 1))
    else (d, cs)

/-- The five components produced by `urllib.parse.urlsplit`. -/
structure SplitResult where
  scheme : Str
  netloc : Str
  path : Str
  query : Str
  fragment : Str
  deriving DecidableEq, Repr

/-- A character that ends the netloc part of a URL. -/
def netlocStop (c : Char) : Bool :=
  c = '/' || c = '?' || c = '#'

/-- `urllib.parse.urlsplit(url, scheme=d)` (fragments allowed): detect the
scheme, consume `//netloc` up to the next `/?#`, split the fragment at the
first `#`, then the query at the first `?`. -/
def urlsplitWith (url : Str) (d : Str) : SplitResult :=
  let sr := splitScheme url d
  let nr : Str × Str :=
    match sr.2 with
    | '/' :: '/' :: r =>
      (r.takeWhile (fun c => !netlocStop c),
       r.drop (r.takeWhile (fun c => !netlocStop c)).length)
    | _ => ([], sr.2)
  let fr := splitAtFirst '#' nr.2
  let pq := splitAtFirst '?' fr.1
  ⟨sr.1, nr.1, pq.1, pq.2.getD [], fr.2.getD []⟩

/-- CPython `uses_relative`. -/
def uses_relative : List Str :=
  ["", "ftp", "http", "gopher", "nntp", "imap", "wais", "file", "https",
   "shttp", "mms", "prospero", "rtsp", "rtspu", "sftp", "svn", "svn+ssh",
   "ws", "wss"].map String.data

/-- CPython `uses_netloc`. -/
def uses_netloc : List Str :=
  ["", "ftp", "http", "gopher", "nntp", "telnet", "imap", "wais", "file",
   "mms", "https", "shttp", "snews", "prospero", "rtsp", "rtspu", "rsync",
   "svn", "svn+ssh", "sftp", "nfs", "git", "git+ssh", "ws", "wss",
   "itms-services"].map String.data

/-- CPython `uses_params`. -/
def uses_params : List Str :=
  ["", "ftp", "hdl", "prospero", "http", "imap", "https", "shttp", "rtsp",
   "rtspu", "sip", "sips", "mms", "sftp", "tel"].map String.data

/-- CPython `_splitparams`: split `;params` off the path, searching only
after the last slash when one is present. -/
def pySplitParams (url : Str) : Str × Str :=
  match lastIdxOf '/' url with
  | some k =>
    (match (url.drop k).findIdx? (fun c => c = ';') with
     | some j => (url.take (k + j), url.drop (k + j + 1))
     | none => (url, []))
  | none =>
    (match url.findIdx? (fun c => c = ';') with
     | some i => (url.take i, url.drop (i + 1))
     | none => (url, []))

/-- The six components produced by `urllib.parse.urlparse`. -/
structure ParseResult where
  scheme : Str
  netloc : Str
  path : Str
  params : Str
  query : Str
  fragment : Str
  deriving DecidableEq, Repr

/-- `urllib.parse.urlparse(url, scheme=d)`: `urlsplit` plus the params
split for schemes in `uses_params`. -/
def urlparseWith (url : Str) (d : Str) : ParseResult :=
  let r := urlsplitWith url d
  let (path, params) :=
    if uses_params.contains r.scheme && r.path.contains ';' then pySplitParams r.path
    else (r.path, [])
  ⟨r.scheme, r.netloc, path, params, r.query, r.fragment⟩

/-- `urllib.parse.urlunsplit`. -/
def urlunsplit (scheme netloc path query fragment : Str) : Str :=
  let url :=
    if !netloc.isEmpty || (!path.isEmpty && path.take 2 = ['/', '/']) then
      ['/', '/'] ++ netloc ++
        (if !path.isEmpty && !headIs '/' path then '/' :: path else path)
    else path
  let url := if !scheme.isEmpty then scheme ++ ':' :: url else url
  let url := if !query.isEmpty then url ++ '?' :: query else url
  if !fragment.isEmpty then url ++ '#' :: fragment else url

/-- `urllib.parse.urlunparse`. -/
def urlunparse (scheme netloc path params query fragment : Str) : Str :=
  urlunsplit scheme netloc
    (if !params.isEmpty then path ++ ';' :: params else path) query fragment

/-- `filter(None, segments[1:-1])` applied in place: keep the first and
last segment, drop empty interior segments. -/
def filterInterior (l : List Str) : List Str :=
  match l with
  | [] => []
  | [a] => [a]
  | a :: rest =>
    match rest.getLast? with
    | some z => a :: ((rest.dropLast.filter (fun s => !s.isEmpty)) ++ [z])
    | none => [a]

/-- The dot-segment resolution loop of `urljoin`: `..` pops (ignoring pops
from an empty stack), `.` is dropped, anything else is pushed. -/
def resolveSegments (segments : List Str) : List Str :=
  segments.foldl
    (fun acc seg =>
      if seg = "..".data then acc.dropLast
      else if seg = ".".data then acc
      else acc ++ [seg]) []

/-- `urllib.parse.urljoin(base, url)`, translated from CPython. -/
def urljoin (base url : Str) : Str :=
  if base.isEmpty then url
  else if url.isEmpty then base
  else
    let b := urlparseWith base []
    let u := urlparseWith url b.scheme
    if !(u.scheme = b.scheme) || !uses_relative.contains u.scheme then url
    else if uses_netloc.contains u.scheme && !u.netloc.isEmpty then
      urlunparse u.scheme u.netloc u.path u.params u.query u.fragment
    else
      let netloc := if uses_netloc.contains u.scheme then b.netloc else u.netloc
      if u.path.isEmpty && u.params.isEmpty then
        urlunparse u.scheme netloc b.path b.params
          (if u.query.isEmpty then b.query else u.query) u.fragment
      else
        let baseParts := pySplitOn '/' b.path
        let baseParts :=
          if !(baseParts.getLast? = some []) then baseParts.dropLast else baseParts
        let segments :=
          if headIs '/' u.path then pySplitOn '/' u.path
          else filterInterior (baseParts ++ pySplitOn '/' u.path)
        let resolved := resolveSegments segments
        let resolved :=
          if segments.getLast? = some "..".data || segments.getLast? = some ".".data then
            resolved ++ [[]]
          else resolved
        let joined := List.intercalate ['/'] resolved
        urlunparse u.scheme netloc (if joined.isEmpty then ['/'] else joined)
          u.params u.query u.fragment

/-! ### The Django settings surface the file reads, and Python `repr`. -/

/-- The three `django.conf.settings` entries `dict_as_object.py` uses. -/
structure Settings where
  DEBUG : Bool
  ALLOWED_HOSTS : List Str
  USE_X_FORWARDED_HOST : Bool
  deriving DecidableEq, Repr

/-- Python `repr` of a `str` (`"%r" % host`), for the printable hosts that
reach it: single quotes unless the text holds a single quote and no double
quote, with backslash-escaping of the chosen quote and of backslashes. -/
def pyReprStr (s : Str) : Str :=
  let q : Char := if s.contains (Char.ofNat 39) && !s.contains '"' then '"' else Char.ofNat 39
  q :: s.flatMap (fun c => if c = q || c = Char.ofNat 92 then [Char.ofNat 92, c] else [c]) ++ [q]

/-! ### The request-style methods of `DictAsObject`. -/

/-- `self.channels_scope` followed by a mapping operation (`.get`): the
attribute must resolve, through `__getattr__`, to a dict reference;
anything else raises (`none`). -/
def DictAsObject.channelsScopeDict (h : Heap) (w : DictAsObject) : Option Dict :=
  match DictAsObject.getattr h w "channels_scope".data with
  | .found (.vref b) => some (h.getD b)
  | _ => none

/-- `self.META` followed by a mapping operation: the attribute must
resolve to a dict reference. -/
def DictAsObject.metaDict (h : Heap) (w : DictAsObject) : Option Dict :=
  match DictAsObject.getattr h w "META".data with
  | .found (.vref a) => some (h.getD a)
  | _ => none

/-- `self.path` used as a string. -/
def DictAsObject.pathAttr (h : Heap) (w : DictAsObject) : Option Str :=
  match DictAsObject.getattr h w "path".data with
  | .found (.vstr s) => some s
  | _ => none

/-- ASCII-only model of Python `str.upper`. -/
def pyUpper (s : Str) : Str := s.map Char.toUpper

/-- `key.decode("utf-8").replace("-", "_").upper()` applied to an
already-decoded header name. -/
def transformHeaderKey (k : Str) : Str :=
  pyUpper (k.map (fun c => if c = '-' then Char.ofNat 95 else c))

/-- One iteration of the `build_meta` loop: decode the header pair and
store it under the transformed key. -/
def buildMetaStep (m : Dict) (kv : List Nat × List Nat) : Option Dict := do
  let k ← utf8Decode kv.1
  let v ← utf8Decode kv.2
  pure (dictInsert m (transformHeaderKey k) (.vstr v))

/-- The `META` dict `build_meta` computes from a channels scope dict:
decode every `(key, value)` header pair and store it under the transformed
key (later pairs overwrite earlier ones), then store the decoded
`query_string` (default `b""`) under `QUERY_STRING`.  `none` models a
decode error, a non-list `headers` value, or a non-bytes `query_string`. -/
def computeMeta (cs : Dict) : Option Dict := do
  let hs ← match dictLookup cs "headers".data with
    | some (.vheaders l) => some l
    | none => some []
    | some _ => none
  let m ← hs.foldlM buildMetaStep ([] : Dict)
  let qs ← match dictLookup cs "query_string".data with
    | some (.vbytes b) => utf8Decode b
    | none => some []
    | some _ => none
  pure (dictInsert m "QUERY_STRING".data (.vstr qs))

/-- `DictAsObject.build_meta` (lines 89-95): build the `META` dict from
`self.channels_scope` and store it through `self.META = META`, i.e. as the
key `META` of the primary mapping (the wrapper itself is unchanged because
`META` does not start with an underscore). -/
def DictAsObject.build_meta (h : Heap) (w : DictAsObject) : Option Heap := do
  let cs ← DictAsObject.channelsScopeDict h w
  let m ← computeMeta cs
  let (h1, aM) := h.alloc m
  pure (heapSetKey h1 w.scope "META".data (.vref aM))

/-- `DictAsObject._get_full_path` (lines 139-148), for a given `path`:
the escaped path, then a slash when `force_append_slash` is set and the
path does not already end in one, then `?` and the re-encoded query string
when `META["QUERY_STRING"]` is present and nonempty. -/
def DictAsObject.getFullPathOf (h : Heap) (w : DictAsObject) (path : Str)
    (forceAppendSlash : Bool) : Option Str := do
  let m ← DictAsObject.metaDict h w
  let qs ← match dictLookup m "QUERY_STRING".data with
    | some (.vstr q) => some q
    | none => some []
    | some _ => none
  pure (escape_uri_path path ++
    (if forceAppendSlash && !(path.getLast? = some '/') then ['/'] else []) ++
    (if !qs.isEmpty then '?' :: iri_to_uri qs else []))

/-- `DictAsObject.get_full_path` (lines 136-137). -/
def DictAsObject.get_full_path (h : Heap) (w : DictAsObject) (forceAppendSlash : Bool) :
    Option Str := do
  let p ← DictAsObject.pathAttr h w
  DictAsObject.getFullPathOf h w p forceAppendSlash

/-- `DictAsObject.is_secure` (lines 150-151): `not settings.DEBUG`,
independent of the connection. -/
def DictAsObject.is_secure (st : Settings) : Bool :=
  !st.DEBUG

/-- `DictAsObject._get_raw_host` (lines 179-197): prefer
`META["X_FORWARDED_HOST"]` when `USE_X_FORWARDED_HOST` is set, then
`META["HOST"]`, then the literal `"localhost"`. -/
def DictAsObject.getRawHost (st : Settings) (h : Heap) (w : DictAsObject) : Option PyVal := do
  let m ← DictAsObject.metaDict h w
  if st.USE_X_FORWARDED_HOST && (dictLookup m "X_FORWARDED_HOST".data).isSome then
    dictLookup m "X_FORWARDED_HOST".data
  else if (dictLookup m "HOST".data).isSome then
    dictLookup m "HOST".data
  else
    pure (.vstr "localhost".data)

/-- The allow-list `get_host` actually validates against: `ALLOWED_HOSTS`,
or the localhost variants when `DEBUG` is on and `ALLOWED_HOSTS` is empty. -/
def effectiveAllowedHosts (st : Settings) : List Str :=
  if st.DEBUG && st.ALLOWED_HOSTS.isEmpty then
    [".localhost".data, "127.0.0.1".data, "[::1]".data]
  else st.ALLOWED_HOSTS

/-- The `DisallowedHost` message `get_host` builds for a rejected host. -/
def invalidHostMessage (host domain : Str) : Str :=
  "Invalid HTTP_HOST header: ".data ++ pyReprStr host ++ ".".data ++
    (if !domain.isEmpty then
      " You may need to add ".data ++ pyReprStr domain ++ " to ALLOWED_HOSTS.".data
     else
      " The domain name provided is not valid according to RFC 1034/1035.".data)

/-- `DictAsObject.get_host` (lines 157-177): resolve the raw host, compute
the effective allow-list, split domain and port, and either return the
host unchanged or raise `DisallowedHost` (`Except.error`) with the
diagnostic message. -/
def DictAsObject.get_host (st : Settings) (h : Heap) (w : DictAsObject) :
    Option (Except Str Str) := do
  let hostV ← DictAsObject.getRawHost st h w
  let host ← match hostV with
    | .vstr s => some s
    | _ => none
  let domain := (split_domain_port host).1
  if !domain.isEmpty && validate_host domain (effectiveAllowedHosts st) then
    pure (Except.ok host)
  else
    pure (Except.error (invalidHostMessage host domain))

/-- `DictAsObject._current_scheme_host` (lines 153-155):
`"https"`/`"http"` by `is_secure`, `://`, and `get_host()`; a
`DisallowedHost` escapes (`none`). -/
def DictAsObject.currentSchemeHost (st : Settings) (h : Heap) (w : DictAsObject) :
    Option Str := do
  let hostE ← DictAsObject.get_host st h w
  match hostE with
  | Except.ok host =>
    pure ((if DictAsObject.is_secure st then "https".data else "http".data) ++
      "://".data ++ host)
  | Except.error _ => none

/-- `DictAsObject.build_absolute_uri` (lines 97-134), translated branch by
branch: default the location to `"//" + get_full_path()`, split it, return
absolute locations through `iri_to_uri`, take the cheap
scheme-host-concatenation path for clean absolute paths, and `urljoin`
everything else against the current scheme, host and path. -/
def DictAsObject.build_absolute_uri (st : Settings) (h : Heap) (w : DictAsObject)
    (location : Option Str) : Option Str := do
  let loc ← match location with
    | none => (DictAsObject.get_full_path h w false).map (fun fp => '/' :: '/' :: fp)
    | some l => some l
  let bits := urlsplitWith loc []
  if bits.scheme.isEmpty || bits.netloc.isEmpty then
    if headIs '/' bits.path && bits.scheme.isEmpty && bits.netloc.isEmpty &&
        !listSubstr "/./".data bits.path && !listSubstr "/../".data bits.path then do
      let s ← DictAsObject.currentSchemeHost st h w
      pure (iri_to_uri (s ++ dropDoubleSlash loc))
    else do
      let s ← DictAsObject.currentSchemeHost st h w
      let p ← DictAsObject.pathAttr h w
      pure (iri_to_uri (urljoin (s ++ p) loc))
  else
    pure (iri_to_uri loc)

/-! ### Derived notions used to state the claims, and shared example
states for witnesses. -/

/-- The fallback mapping of the two-level attribute lookup: the dict the
`channels_scope` key points at, or the empty dict when the key is absent
(looking anything up in it then misses, exactly like the caught
`KeyError`). -/
def DictAsObject.fallbackDict (h : Heap) (w : DictAsObject) : Dict :=
  match dictLookup (h.getD w.scope) "channels_scope".data with
  | some (.vref b) => h.getD b
  | _ => []

/-- What one header pair contributes to `META` at key `K`: its decoded
value when its transformed decoded name is `K`. -/
def headerContribution (K : Str) (kv : List Nat × List Nat) : Option PyVal :=
  match utf8Decode kv.1, utf8Decode kv.2 with
  | some k, some v => if transformHeaderKey k = K then some (PyVal.vstr v) else none
  | _, _ => none

/-- The value the last header pair with a given transformed name
contributes to `META` (specification-side description of the
`build_meta` loop). -/
def lastHeaderValue (hs : List (List Nat × List Nat)) (K : Str) : Option PyVal :=
  hs.reverse.findSome? (headerContribution K)

/-- Example settings: production-style configuration. -/
def exSettings : Settings :=
  ⟨false, ["example.com".data], false⟩

/-- Example heap: cell 0 is a scope (post-`__init__`) with a path and a
`META` reference, cell 1 is the `META` dict. -/
def exHeap : Heap :=
  ⟨[[("_scope".data, PyVal.vref 0),
     ("path".data, PyVal.vstr "/graphql".data),
     ("META".data, PyVal.vref 1)],
    [("HOST".data, PyVal.vstr "example.com".data),
     ("QUERY_STRING".data, PyVal.vstr "q=1".data)]]⟩

/-- The wrapper around cell 0 of `exHeap`, as `__init__` leaves it. -/
def exWrapper : DictAsObject :=
  ⟨0, [("_scope".data, PyVal.vref 0)]⟩

/-- Example heap whose scope carries a `channels_scope` fallback mapping
(cell 1) with a key that the primary mapping lacks. -/
def exFallbackHeap : Heap :=
  ⟨[[("_scope".data, PyVal.vref 0), ("channels_scope".data, PyVal.vref 1)],
    [("user".data, PyVal.vstr "alice".data),
     ("headers".data, PyVal.vheaders
       [("content-type".data.map Char.toNat, "text/html".data.map Char.toNat),
        ("content-type".data.map Char.toNat, "text/plain".data.map Char.toNat)]),
     ("query_string".data, PyVal.vbytes ("q=1".data.map Char.toNat))]]⟩

/-- Example heap whose scope stores a value under an underscore key. -/
def exUnderscoreHeap : Heap :=
  ⟨[[("_scope".data, PyVal.vref 0), ("_x".data, PyVal.vstr "v".data)]]⟩

/-- Example heap whose `META` holds a host that is not a valid domain yet
passes `validate_host` against a wildcard allow-list. -/
def exBadHostHeap : Heap :=
  ⟨[[("_scope".data, PyVal.vref 0), ("META".data, PyVal.vref 1)],
    [("HOST".data, PyVal.vstr "@bad@".data)]]⟩

/-- Example heap whose scope path contains a `..` segment. -/
def exDotHeap : Heap :=
  ⟨[[("_scope".data, PyVal.vref 0),
     ("path".data, PyVal.vstr "/a/../b".data),
     ("META".data, PyVal.vref 1)],
    [("HOST".data, PyVal.vstr "example.com".data),
     ("QUERY_STRING".data, PyVal.vstr [])]]⟩

/-- Every character of the string is kept verbatim by `iri_to_uri`. -/
def allUriSafe (s : Str) : Bool :=
  s.all (fun c => alwaysSafeChar c || iriSafe.contains c)

/-! ### Association-list and heap laws used by the claim proofs. -/

theorem dictLookup_dictInsert (d : Dict) (k K : Str) (v : PyVal) :
    dictLookup (dictInsert d k v) K = if k = K then some v else dictLookup d K := by
  induction d with
  | nil =>
    by_cases h : k = K <;> simp [dictInsert, dictLookup, h]
  | cons kv rest ih =>
    obtain ⟨k2, v2⟩ := kv
    by_cases h2 : k2 = k
    · subst h2
      by_cases h3 : k2 = K <;> simp [dictInsert, dictLookup, h3]
    · by_cases h3 : k2 = K
      · subst h3
        have hk : ¬ k = k2 := fun hh => h2 hh.symm
        simp [dictInsert, dictLookup, h2, hk]
      · simp [dictInsert, dictLookup, h2, h3, ih]

theorem dictLookup_eq_none_of_not_mem (d : Dict) (k : Str)
    (hk : k ∉ d.map Prod.fst) : dictLookup d k = none := by
  induction d with
  | nil => rfl
  | cons kv rest ih =>
    obtain ⟨k2, v2⟩ := kv
    simp only [List.map_cons, List.mem_cons] at hk
    push_neg at hk
    have h2 : ¬ k2 = k := fun hh => hk.1 hh.symm
    simp [dictLookup, h2, ih hk.2]

theorem dictErase_lookup (d : Dict) (k : Str) (d' : Dict)
    (hn : (d.map Prod.fst).Nodup) (he : dictErase d k = some d') :
    ∀ K, dictLookup d' K = if K = k then none else dictLookup d K := by
  induction d generalizing d' with
  | nil => simp [dictErase] at he
  | cons kv rest ih =>
    obtain ⟨k2, v2⟩ := kv
    simp only [List.map_cons, List.nodup_cons] at hn
    by_cases h2 : k2 = k
    · subst h2
      simp only [dictErase, if_pos rfl] at he
      injection he with he
      subst he
      intro K
      by_cases h3 : K = k2
      · subst h3
        simp [dictLookup_eq_none_of_not_mem _ _ hn.1]
      · have h4 : ¬ k2 = K := fun hh => h3 hh.symm
        simp [dictLookup, h3, h4]
    · simp only [dictErase, if_neg h2] at he
      match hr : dictErase rest k with
      | none => simp [hr] at he
      | some r' =>
        simp only [hr, Option.map_some'] at he
        injection he with he
        subst he
        intro K
        have := ih r' hn.2 hr K
        by_cases h3 : k2 = K
        · subst h3
          simp [dictLookup, h2]
        · simp [dictLookup, h3, this]

theorem getD_heapSetKey_self (h : Heap) (a : Nat) (k : Str) (v : PyVal)
    (ha : a < h.cells.length) :
    (heapSetKey h a k v).getD a = dictInsert (h.getD a) k v := by
  simp [heapSetKey, Heap.set, Heap.getD, List.getElem?_set_self ha]

theorem getD_heapSetKey_other (h : Heap) (a b : Nat) (k : Str) (v : PyVal)
    (hab : b ≠ a) :
    (heapSetKey h a k v).getD b = h.getD b := by
  simp [heapSetKey, Heap.set, Heap.getD, List.getElem?_set_ne (fun hh => hab hh.symm)]

theorem length_heapSetKey (h : Heap) (a : Nat) (k : Str) (v : PyVal) :
    (heapSetKey h a k v).cells.length = h.cells.length := by
  simp [heapSetKey, Heap.set]

/-! ### Claim C3. -/

/-- C3: the wrapper performs no copying of the mapping given at
construction: `_asdict` returns a reference to that very heap cell,
construction allocates no new cell and leaves every other cell untouched,
and each mutation through the wrapper (attribute assignment other than
rebinding `_scope` itself, item assignment, item deletion) rewrites
exactly the affected key of the underlying mapping, leaving every other
key and every other heap cell unchanged. -/
theorem asdict_is_scope_and_mutations_write_through :
    (∀ (h : Heap) (a : Nat),
      (DictAsObject.init h a).2.asdict = PyVal.vref a ∧
      ((DictAsObject.init h a).1).cells.length = h.cells.length ∧
      ∀ b, b ≠ a → ((DictAsObject.init h a).1).getD b = h.getD b) ∧
    (∀ (h : Heap) (w : DictAsObject) (name : Str) (v : PyVal),
      ¬ name = "_scope".data → w.scope < h.cells.length →
      (DictAsObject.setattr h w name v).map Prod.fst =
        some (heapSetKey h w.scope name v) ∧
      (DictAsObject.setattr h w name v).map (fun p => p.2.scope) = some w.scope ∧
      (∀ K, dictLookup ((heapSetKey h w.scope name v).getD w.scope) K =
        if name = K then some v else dictLookup (h.getD w.scope) K) ∧
      (∀ b, b ≠ w.scope → (heapSetKey h w.scope name v).getD b = h.getD b)) ∧
    (∀ (h : Heap) (w : DictAsObject) (k : Str) (v : PyVal),
      w.scope < h.cells.length →
      (∀ K, dictLookup ((DictAsObject.setitem h w k v).getD w.scope) K =
        if k = K then some v else dictLookup (h.getD w.scope) K) ∧
      (∀ b, b ≠ w.scope → (DictAsObject.setitem h w k v).getD b = h.getD b)) ∧
    (∀ (h : Heap) (w : DictAsObject) (k : Str) (h' : Heap),
      w.scope < h.cells.length →
      ((h.getD w.scope).map Prod.fst).Nodup →
      DictAsObject.delitem h w k = some h' →
      (∀ K, dictLookup (h'.getD w.scope) K =
        if K = k then none else dictLookup (h.getD w.scope) K) ∧
      (∀ b, b ≠ w.scope → h'.getD b = h.getD b)) := by
  refine ⟨?_, ?_, ?_, ?_⟩
  · intro h a
    refine ⟨rfl, length_heapSetKey h a _ _, ?_⟩
    intro b hb
    exact getD_heapSetKey_other h a b _ _ hb
  · intro h w name v hname hlt
    have hmap : (DictAsObject.setattr h w name v).map Prod.fst =
        some (heapSetKey h w.scope name v) := by
      by_cases hund : name.head? = some (Char.ofNat 95) <;>
        simp [DictAsObject.setattr, hund, hname]
    have hscope : (DictAsObject.setattr h w name v).map (fun p => p.2.scope) =
        some w.scope := by
      by_cases hund : name.head? = some (Char.ofNat 95) <;>
        simp [DictAsObject.setattr, hund, hname]
    refine ⟨hmap, hscope, ?_, ?_⟩
    · intro K
      rw [getD_heapSetKey_self h w.scope name v hlt]
      exact dictLookup_dictInsert _ name K v
    · intro b hb
      exact getD_heapSetKey_other h w.scope b name v hb
  · intro h w k v hlt
    refine ⟨?_, ?_⟩
    · intro K
      rw [show DictAsObject.setitem h w k v = heapSetKey h w.scope k v from rfl,
        getD_heapSetKey_self h w.scope k v hlt]
      exact dictLookup_dictInsert _ k K v
    · intro b hb
      exact getD_heapSetKey_other h w.scope b k v hb
  · intro h w k h' hlt hn he
    simp only [DictAsObject.delitem] at he
    match hd : dictErase (h.getD w.scope) k with
    | none => rw [hd] at he; simp at he
    | some d' =>
      rw [hd] at he
      simp only [Option.map_some'] at he
      injection he with he
      subst he
      constructor
      · intro K
        have hcell : (Heap.set h w.scope d').getD w.scope = d' := by
          simp [Heap.set, Heap.getD, List.getElem?_set_self hlt]
        rw [hcell]
        exact dictErase_lookup _ k d' hn hd K
      · intro b hb
        simp [Heap.set, Heap.getD, List.getElem?_set_ne (fun hh => hb hh.symm)]

/-- C3 witness: a concrete item assignment on the example scope updates
the stored key and leaves the other keys in place. -/
theorem asdict_is_scope_and_mutations_write_through_witness :
    (∀ K, dictLookup ((DictAsObject.setitem exHeap exWrapper "path".data
        (PyVal.vstr "/new".data)).getD exWrapper.scope) K =
      if "path".data = K then some (PyVal.vstr "/new".data)
      else dictLookup (exHeap.getD exWrapper.scope) K) ∧
    (∀ b, b ≠ exWrapper.scope →
      (DictAsObject.setitem exHeap exWrapper "path".data
        (PyVal.vstr "/new".data)).getD b = exHeap.getD b) :=
  (asdict_is_scope_and_mutations_write_through.2.2.1 exHeap exWrapper
    "path".data (PyVal.vstr "/new".data) (by decide))

/-! ### Claim C8. -/

/-- C8: assigning an attribute whose name starts with an underscore (other
than rebinding `_scope` itself) both records the instance attribute and
falls through to write the value into the underlying mapping under the
same name; in particular `__init__` itself inserts the self-referential
entry `"_scope" ↦ the mapping` into the caller-provided mapping. -/
theorem setattr_underscore_writes_through_and_init_self_ref :
    (∀ (h : Heap) (w : DictAsObject) (name : Str) (v : PyVal),
      name.head? = some (Char.ofNat 95) → ¬ name = "_scope".data →
      w.scope < h.cells.length →
      DictAsObject.setattr h w name v =
        some (heapSetKey h w.scope name v,
          { w with idict := dictInsert w.idict name v }) ∧
      dictLookup (dictInsert w.idict name v) name = some v ∧
      dictLookup ((heapSetKey h w.scope name v).getD w.scope) name = some v) ∧
    (∀ (h : Heap) (a : Nat), a < h.cells.length →
      (DictAsObject.init h a).2.idict = [("_scope".data, PyVal.vref a)] ∧
      dictLookup (((DictAsObject.init h a).1).getD a) "_scope".data =
        some (PyVal.vref a)) := by
  constructor
  · intro h w name v hund hname hlt
    refine ⟨by simp [DictAsObject.setattr, hund, hname], ?_, ?_⟩
    · rw [dictLookup_dictInsert]
      simp
    · rw [getD_heapSetKey_self h w.scope name v hlt, dictLookup_dictInsert]
      simp
  · intro h a hlt
    refine ⟨rfl, ?_⟩
    show dictLookup ((heapSetKey h a "_scope".data (PyVal.vref a)).getD a) _ = _
    rw [getD_heapSetKey_self h a _ _ hlt, dictLookup_dictInsert]
    simp

/-- C8 witness: assigning `_token` on the example wrapper sets the
instance attribute and also lands in the wrapped mapping. -/
theorem setattr_underscore_writes_through_and_init_self_ref_witness :
    DictAsObject.setattr exHeap exWrapper "_token".data (PyVal.vstr "t".data) =
      some (heapSetKey exHeap exWrapper.scope "_token".data (PyVal.vstr "t".data),
        { exWrapper with
            idict := dictInsert exWrapper.idict "_token".data (PyVal.vstr "t".data) }) ∧
    dictLookup (dictInsert exWrapper.idict "_token".data (PyVal.vstr "t".data))
      "_token".data = some (PyVal.vstr "t".data) ∧
    dictLookup ((heapSetKey exHeap exWrapper.scope "_token".data
        (PyVal.vstr "t".data)).getD exWrapper.scope) "_token".data =
      some (PyVal.vstr "t".data) :=
  (setattr_underscore_writes_through_and_init_self_ref.1 exHeap exWrapper
    "_token".data (PyVal.vstr "t".data) (by decide) (by decide) (by decide))

/-! ### Claim C9. -/

/-- C9: membership testing consults only the primary mapping: `key in
wrapper` holds exactly when the primary mapping stores the key, and on the
example scope whose `channels_scope` fallback holds `user` (absent from
the primary mapping) the attribute read succeeds while the membership test
reports the key absent. -/
theorem contains_consults_primary_only :
    (∀ (h : Heap) (w : DictAsObject) (k : Str),
      DictAsObject.containsKey h w k = true ↔
        ∃ v, dictLookup (h.getD w.scope) k = some v) ∧
    (DictAsObject.getattr exFallbackHeap exWrapper "user".data =
        LookupResult.found (PyVal.vstr "alice".data) ∧
      DictAsObject.containsKey exFallbackHeap exWrapper "user".data = false) := by
  constructor
  · intro h w k
    simp [DictAsObject.containsKey, Option.isSome_iff_exists]
  · exact ⟨rfl, rfl⟩

/-! ### Claim C1. -/

/-- C1 counterexample: the key `_x` is stored in the primary mapping, yet
attribute access for `_x` signals `AttributeError`, because `__getattr__`
rejects every name that starts with an underscore before any key lookup;
this refutes "fails when, and only when, the key is absent in both the
primary and the fallback mapping". -/
theorem getattr_underscore_counterexample :
    dictLookup (exUnderscoreHeap.getD 0) "_x".data = some (PyVal.vstr "v".data) ∧
    DictAsObject.getattr exUnderscoreHeap exWrapper "_x".data =
      LookupResult.attrError :=
  ⟨rfl, rfl⟩

/-- C1 (amended): for names starting with an underscore attribute access
always signals `AttributeError`; for every other name (when the
`channels_scope` entry, if present, is a mapping) the lookup returns the
value of the primary mapping if present, otherwise the value of the
fallback mapping, and signals `AttributeError` exactly when the key is
absent from both. -/
theorem getattr_two_level_fallback (h : Heap) (w : DictAsObject) :
    (∀ name, name.head? = some (Char.ofNat 95) →
      DictAsObject.getattr h w name = LookupResult.attrError) ∧
    (∀ name, ¬ name.head? = some (Char.ofNat 95) →
      ((∃ b, dictLookup (h.getD w.scope) "channels_scope".data =
          some (PyVal.vref b)) ∨
        dictLookup (h.getD w.scope) "channels_scope".data = none) →
      DictAsObject.getattr h w name =
        (match dictLookup (h.getD w.scope) name with
         | some v => LookupResult.found v
         | none =>
           match dictLookup (DictAsObject.fallbackDict h w) name with
           | some v => LookupResult.found v
           | none => LookupResult.attrError) ∧
      (DictAsObject.getattr h w name = LookupResult.attrError ↔
        dictLookup (h.getD w.scope) name = none ∧
        dictLookup (DictAsObject.fallbackDict h w) name = none)) := by
  constructor
  · intro name hu
    simp [DictAsObject.getattr, hu]
  · intro name hu hcs
    cases hp : dictLookup (h.getD w.scope) name with
    | some v =>
      refine ⟨by simp [DictAsObject.getattr, hu, hp], ?_⟩
      simp [DictAsObject.getattr, hu, hp]
    | none =>
      rcases hcs with ⟨b, hb⟩ | hb
      · cases hq : dictLookup (h.getD b) name with
        | some v =>
          refine ⟨?_, ?_⟩ <;>
            simp [DictAsObject.getattr, hu, hp, hb, DictAsObject.fallbackDict, hq]
        | none =>
          refine ⟨?_, ?_⟩ <;>
            simp [DictAsObject.getattr, hu, hp, hb, DictAsObject.fallbackDict, hq]
      · refine ⟨?_, ?_⟩ <;>
          simp [DictAsObject.getattr, hu, hp, hb, DictAsObject.fallbackDict, dictLookup]

/-- C1 witness: on the example scope the name `user`, found only in the
`channels_scope` fallback, resolves through the two-level lookup. -/
theorem getattr_two_level_fallback_witness :
    DictAsObject.getattr exFallbackHeap exWrapper "user".data =
      (match dictLookup (exFallbackHeap.getD exWrapper.scope) "user".data with
       | some v => LookupResult.found v
       | none =>
         match dictLookup (DictAsObject.fallbackDict exFallbackHeap exWrapper)
             "user".data with
         | some v => LookupResult.found v
         | none => LookupResult.attrError) ∧
    (DictAsObject.getattr exFallbackHeap exWrapper "user".data =
        LookupResult.attrError ↔
      dictLookup (exFallbackHeap.getD exWrapper.scope) "user".data = none ∧
      dictLookup (DictAsObject.fallbackDict exFallbackHeap exWrapper)
        "user".data = none) :=
  (getattr_two_level_fallback exFallbackHeap exWrapper).2 "user".data
    (by decide) (Or.inl ⟨1, rfl⟩)

/-! ### Claim C10. -/

/-- C10: `is_secure` is exactly the negation of the `DEBUG` setting,
independent of the connection or scope contents, so the scheme
`_current_scheme_host` uses (and hence the scheme of every URI built from
it) is `https` exactly when `DEBUG` is off and `http` otherwise. -/
theorem is_secure_and_scheme_from_debug :
    (∀ st : Settings, DictAsObject.is_secure st = !st.DEBUG) ∧
    (∀ (st : Settings) (h : Heap) (w : DictAsObject) (host : Str),
      DictAsObject.get_host st h w = some (Except.ok host) →
      DictAsObject.currentSchemeHost st h w =
        some ((if st.DEBUG then "http".data else "https".data) ++
          "://".data ++ host)) ∧
    (∀ st : Settings,
      ((if st.DEBUG then "http".data else "https".data) = "https".data ↔
        st.DEBUG = false)) := by
  refine ⟨fun st => rfl, ?_, ?_⟩
  · intro st h w host hh
    cases hD : st.DEBUG <;>
      simp [DictAsObject.currentSchemeHost, hh, DictAsObject.is_secure, hD]
  · intro st
    cases hD : st.DEBUG <;> simp [hD]

/-- C10 witness: with `DEBUG = false` the scheme-host of the example scope is
`https://example.com`. -/
theorem is_secure_and_scheme_from_debug_witness :
    DictAsObject.currentSchemeHost exSettings exHeap exWrapper =
      some ((if exSettings.DEBUG then "http".data else "https".data) ++
        "://".data ++ "example.com".data) :=
  is_secure_and_scheme_from_debug.2.1 exSettings exHeap exWrapper
    "example.com".data rfl

/-! ### Claim C4. -/

/-- C4: raw host resolution prefers `META["X_FORWARDED_HOST"]` when the
`USE_X_FORWARDED_HOST` setting is enabled and the entry exists, then
`META["HOST"]`, then the literal `localhost`. -/
theorem get_raw_host_preference_order (st : Settings) (h : Heap)
    (w : DictAsObject) (m : Dict) (hm : DictAsObject.metaDict h w = some m) :
    (∀ v, st.USE_X_FORWARDED_HOST = true →
      dictLookup m "X_FORWARDED_HOST".data = some v →
      DictAsObject.getRawHost st h w = some v) ∧
    ((st.USE_X_FORWARDED_HOST = false ∨
        dictLookup m "X_FORWARDED_HOST".data = none) →
      ∀ v, dictLookup m "HOST".data = some v →
      DictAsObject.getRawHost st h w = some v) ∧
    ((st.USE_X_FORWARDED_HOST = false ∨
        dictLookup m "X_FORWARDED_HOST".data = none) →
      dictLookup m "HOST".data = none →
      DictAsObject.getRawHost st h w = some (PyVal.vstr "localhost".data)) := by
  refine ⟨?_, ?_, ?_⟩
  · intro v hx hv
    simp [DictAsObject.getRawHost, hm, hx, hv]
  · intro hx v hv
    rcases hx with hx | hx <;> simp [DictAsObject.getRawHost, hm, hx, hv]
  · intro hx hh
    rcases hx with hx | hx <;> simp [DictAsObject.getRawHost, hm, hx, hh]

/-- C4 witness: on the example scope (forwarding disabled) the raw host is
the `META["HOST"]` entry. -/
theorem get_raw_host_preference_order_witness :
    DictAsObject.getRawHost exSettings exHeap exWrapper =
      some (PyVal.vstr "example.com".data) :=
  (get_raw_host_preference_order exSettings exHeap exWrapper
    (exHeap.getD 1) rfl).2.1 (Or.inl rfl)
    (PyVal.vstr "example.com".data) rfl

/-! ### Claim C7. -/

/-- C7: the full path is the URI-escaped path, followed by a single slash
exactly when `force_append_slash` is set and the path does not already end
in a slash, followed by `?` and the URI-encoded query string exactly when
`META["QUERY_STRING"]` is present and non-empty. -/
theorem get_full_path_shape (h : Heap) (w : DictAsObject) (p qs : Str)
    (force : Bool) (m : Dict) (hm : DictAsObject.metaDict h w = some m)
    (hq : dictLookup m "QUERY_STRING".data = some (PyVal.vstr qs) ∨
      (dictLookup m "QUERY_STRING".data = none ∧ qs = [])) :
    DictAsObject.getFullPathOf h w p force =
      some (escape_uri_path p ++
        (if force = true ∧ ¬ p.getLast? = some '/' then ['/'] else []) ++
        (if ¬ qs = [] then '?' :: iri_to_uri qs else [])) ∧
    (DictAsObject.pathAttr h w = some p →
      DictAsObject.get_full_path h w force =
        DictAsObject.getFullPathOf h w p force) := by
  constructor
  · rcases hq with hq | ⟨hq, rfl⟩
    · by_cases hf : force = true <;> by_cases hl : p.getLast? = some '/' <;>
        by_cases hqe : qs = [] <;>
          simp [DictAsObject.getFullPathOf, hm, hq, hf, hl, hqe]
    · by_cases hf : force = true <;> by_cases hl : p.getLast? = some '/' <;>
        simp [DictAsObject.getFullPathOf, hm, hq, hf, hl]
  · intro hp
    simp [DictAsObject.get_full_path, hp]

/-- C7 witness: on the example scope with query string `q=1` the full path
of `/graphql` is `/graphql?q=1`. -/
theorem get_full_path_shape_witness :
    DictAsObject.getFullPathOf exHeap exWrapper "/graphql".data false =
      some (escape_uri_path "/graphql".data ++
        (if false = true ∧ ¬ "/graphql".data.getLast? = some '/' then ['/'] else []) ++
        (if ¬ "q=1".data = [] then '?' :: iri_to_uri "q=1".data else [])) :=
  (get_full_path_shape exHeap exWrapper "/graphql".data "q=1".data false
    (exHeap.getD 1) rfl (Or.inl rfl)).1

/-! ### Substring lemmas (for the `DisallowedHost` message and the
`build_absolute_uri` branch analysis). -/

theorem isPrefixOf_self (l : Str) : l.isPrefixOf l = true := by
  induction l with
  | nil => rfl
  | cons c cs ih => simp [List.isPrefixOf, ih]

theorem listSubstr_self (n : Str) : listSubstr n n = true := by
  cases n with
  | nil => rfl
  | cons c cs => simp [listSubstr, isPrefixOf_self]

theorem listSubstr_append_self (l n : Str) : listSubstr n (l ++ n) = true := by
  induction l with
  | nil => simpa using listSubstr_self n
  | cons c l ih => simp [listSubstr, ih]

theorem listSubstr_append_of_right (n l t : Str) (h : listSubstr n t = true) :
    listSubstr n (l ++ t) = true := by
  induction l with
  | nil => simpa using h
  | cons c l ih => simp [listSubstr, ih]

/-! ### Claim C2. -/

/-- C2 counterexample: the resolved raw host `@bad@` validates against the
configured allow-list `["*"]` (so by the claim `get_host` should succeed),
yet `get_host` raises `DisallowedHost` because no domain parses out of the
host, and the diagnostic message does not mention `ALLOWED_HOSTS` at all,
refuting both the "when, and only when" and the remediation-message parts
of the claim. -/
theorem get_host_counterexample :
    DictAsObject.getRawHost ⟨false, ["*".data], false⟩ exBadHostHeap exWrapper =
      some (PyVal.vstr "@bad@".data) ∧
    validate_host "@bad@".data ["*".data] = true ∧
    DictAsObject.get_host ⟨false, ["*".data], false⟩ exBadHostHeap exWrapper =
      some (Except.error (invalidHostMessage "@bad@".data [])) ∧
    listSubstr "ALLOWED_HOSTS".data (invalidHostMessage "@bad@".data []) = false := by
  refine ⟨rfl, by decide, rfl, by decide⟩

/-- C2 (amended): `get_host` raises `DisallowedHost` exactly when the
domain parsed from the resolved raw host is empty or fails validation
against the effective allow-list (`ALLOWED_HOSTS`, or the localhost
variants when `DEBUG` is on and the list empty); on success it returns the
host unchanged; and whenever a nonempty domain was parsed the error
message does suggest adding that domain to `ALLOWED_HOSTS`. -/
theorem get_host_spec (st : Settings) (h : Heap) (w : DictAsObject) (host : Str)
    (hraw : DictAsObject.getRawHost st h w = some (PyVal.vstr host)) :
    ((!(split_domain_port host).1.isEmpty &&
        validate_host (split_domain_port host).1 (effectiveAllowedHosts st)) = true →
      DictAsObject.get_host st h w = some (Except.ok host)) ∧
    ((!(split_domain_port host).1.isEmpty &&
        validate_host (split_domain_port host).1 (effectiveAllowedHosts st)) = false →
      DictAsObject.get_host st h w =
        some (Except.error (invalidHostMessage host (split_domain_port host).1))) ∧
    ((split_domain_port host).1.isEmpty = false →
      listSubstr " to ALLOWED_HOSTS.".data
        (invalidHostMessage host (split_domain_port host).1) = true) := by
  have hg : DictAsObject.get_host st h w =
      (if (!(split_domain_port host).1.isEmpty &&
          validate_host (split_domain_port host).1 (effectiveAllowedHosts st)) = true then
        some (Except.ok host)
      else some (Except.error (invalidHostMessage host (split_domain_port host).1))) := by
    simp only [DictAsObject.get_host, hraw, Option.bind_eq_bind, Option.some_bind]
    rfl
  refine ⟨?_, ?_, ?_⟩
  · intro hc
    rw [hg, if_pos hc]
  · intro hc
    rw [hg, if_neg]
    simp [hc]
  · intro hd
    have h1 : invalidHostMessage host (split_domain_port host).1 =
        "Invalid HTTP_HOST header: ".data ++ (pyReprStr host ++ (".".data ++
          (" You may need to add ".data ++ (pyReprStr (split_domain_port host).1 ++
            " to ALLOWED_HOSTS.".data)))) := by
      simp [invalidHostMessage, hd]
    rw [h1]
    refine listSubstr_append_of_right _ _ _ ?_
    refine listSubstr_append_of_right _ _ _ ?_
    refine listSubstr_append_of_right _ _ _ ?_
    refine listSubstr_append_of_right _ _ _ ?_
    exact listSubstr_append_self _ _

/-- C2 witness: the host of the example scope `example.com` validates and is
returned unchanged. -/
theorem get_host_spec_witness :
    DictAsObject.get_host exSettings exHeap exWrapper =
      some (Except.ok "example.com".data) :=
  (get_host_spec exSettings exHeap exWrapper "example.com".data rfl).1 (by decide)

/-! ### Claim C5. -/

theorem findSome?_append_eq {α β : Type} (l1 l2 : List α) (f : α → Option β) :
    (l1 ++ l2).findSome? f =
      (match l1.findSome? f with
       | some b => some b
       | none => l2.findSome? f) := by
  induction l1 with
  | nil => simp
  | cons x xs ih => cases hx : f x <;> simp [List.findSome?_cons, hx, ih]

/-- The fold of `buildMetaStep` succeeds on decodable headers and realises
the last-pair-wins lookup semantics over its starting dict. -/
theorem foldlM_buildMetaStep (hs : List (List Nat × List Nat)) : ∀ m0 : Dict,
    (∀ kv ∈ hs, (utf8Decode kv.1).isSome ∧ (utf8Decode kv.2).isSome) →
    ∃ m, hs.foldlM buildMetaStep m0 = some m ∧
      ∀ K, dictLookup m K =
        (match lastHeaderValue hs K with
         | some v => some v
         | none => dictLookup m0 K) := by
  induction hs with
  | nil =>
    intro m0 _
    exact ⟨m0, rfl, fun K => by simp [lastHeaderValue]⟩
  | cons kv tl ih =>
    intro m0 hdec
    obtain ⟨hk0, hv0⟩ := hdec kv (List.mem_cons_self _ _)
    obtain ⟨k, hk⟩ := Option.isSome_iff_exists.mp hk0
    obtain ⟨v, hv⟩ := Option.isSome_iff_exists.mp hv0
    have hstep : buildMetaStep m0 kv =
        some (dictInsert m0 (transformHeaderKey k) (PyVal.vstr v)) := by
      simp [buildMetaStep, hk, hv]
    obtain ⟨m, hm, hchar⟩ := ih (dictInsert m0 (transformHeaderKey k) (PyVal.vstr v))
      (fun kv2 h2 => hdec kv2 (List.mem_cons_of_mem _ h2))
    refine ⟨m, ?_, ?_⟩
    · rw [List.foldlM_cons, hstep]
      exact hm
    · intro K
      have hcons : lastHeaderValue (kv :: tl) K =
          (match lastHeaderValue tl K with
           | some x => some x
           | none => headerContribution K kv) := by
        show (kv :: tl).reverse.findSome? (headerContribution K) = _
        rw [List.reverse_cons, findSome?_append_eq]
        have hfold : lastHeaderValue tl K = tl.reverse.findSome? (headerContribution K) := rfl
        rw [← hfold]
        cases hy : lastHeaderValue tl K <;>
          cases hx : headerContribution K kv <;>
            simp [List.findSome?_cons, hx]
      rw [hchar K, hcons]
      cases hl : lastHeaderValue tl K with
      | some x => simp
      | none =>
        have hcontrib : headerContribution K kv =
            if transformHeaderKey k = K then some (PyVal.vstr v) else none := by
          simp [headerContribution, hk, hv]
        rw [dictLookup_dictInsert, hcontrib]
        by_cases ht : transformHeaderKey k = K <;> simp [ht]

/-- C5: `build_meta` rebuilds `META` from the byte-pair header list of the
fallback scope (empty list when absent): each pair contributes its decoded
value under the decoded, dash-to-underscore, upper-cased key with the last
pair winning; `META["QUERY_STRING"]` is the decoded `query_string` bytes
(empty string when absent); and the dict is stored under the key `META`
of the primary mapping. -/
theorem build_meta_spec (h : Heap) (w : DictAsObject) (cs m : Dict)
    (hs : List (List Nat × List Nat)) (qs : Str)
    (hcs : DictAsObject.channelsScopeDict h w = some cs)
    (hh : dictLookup cs "headers".data = some (PyVal.vheaders hs) ∨
      (dictLookup cs "headers".data = none ∧ hs = []))
    (hqs : (∃ qsb, dictLookup cs "query_string".data = some (PyVal.vbytes qsb) ∧
        utf8Decode qsb = some qs) ∨
      (dictLookup cs "query_string".data = none ∧ qs = []))
    (hdec : ∀ kv ∈ hs, (utf8Decode kv.1).isSome ∧ (utf8Decode kv.2).isSome)
    (hm : computeMeta cs = some m)
    (hlt : w.scope < h.cells.length) :
    DictAsObject.build_meta h w =
      some (heapSetKey (h.alloc m).1 w.scope "META".data (PyVal.vref (h.alloc m).2)) ∧
    dictLookup m "QUERY_STRING".data = some (PyVal.vstr qs) ∧
    (∀ K, ¬ K = "QUERY_STRING".data → dictLookup m K = lastHeaderValue hs K) ∧
    dictLookup ((heapSetKey (h.alloc m).1 w.scope "META".data
        (PyVal.vref (h.alloc m).2)).getD w.scope) "META".data =
      some (PyVal.vref (h.alloc m).2) ∧
    (heapSetKey (h.alloc m).1 w.scope "META".data
        (PyVal.vref (h.alloc m).2)).getD (h.alloc m).2 = m := by
  obtain ⟨m1, hm1, hchar⟩ := foldlM_buildMetaStep hs ([] : Dict) hdec
  have hmeq : m = dictInsert m1 "QUERY_STRING".data (PyVal.vstr qs) := by
    simp only [computeMeta] at hm
    rcases hh with hh | ⟨hh, rfl⟩ <;> rcases hqs with ⟨qsb, hq1, hq2⟩ | ⟨hq1, rfl⟩
    · simp only [hh, hq1, hq2, Option.bind_eq_bind, Option.some_bind, hm1] at hm
      injection hm with hm
      exact hm.symm
    · simp only [hh, hq1, Option.bind_eq_bind, Option.some_bind, hm1] at hm
      injection hm with hm
      exact hm.symm
    · simp only [hh, hq1, hq2, Option.bind_eq_bind, Option.some_bind, hm1] at hm
      injection hm with hm
      exact hm.symm
    · simp only [hh, hq1, Option.bind_eq_bind, Option.some_bind, hm1] at hm
      injection hm with hm
      exact hm.symm
  refine ⟨?_, ?_, ?_, ?_, ?_⟩
  · simp [DictAsObject.build_meta, hcs, hm]
  · rw [hmeq, dictLookup_dictInsert]
    simp
  · intro K hK
    have hKq : ¬ "QUERY_STRING".data = K := fun hh2 => hK hh2.symm
    rw [hmeq, dictLookup_dictInsert, if_neg hKq, hchar K]
    cases hl : lastHeaderValue hs K <;> simp [dictLookup]
  · have hlt2 : w.scope < (h.alloc m).1.cells.length := by
      simp [Heap.alloc]
      omega
    rw [getD_heapSetKey_self _ _ _ _ hlt2, dictLookup_dictInsert]
    simp
  · have hne : (h.alloc m).2 ≠ w.scope := by
      simp only [Heap.alloc]
      omega
    rw [getD_heapSetKey_other _ _ _ _ _ hne]
    simp [Heap.alloc, Heap.getD]

/-- C5 witness: on the example fallback scope (two `content-type` headers,
query string `q=1`) the computed `META` holds the second header value and
the query string, and is stored under `META`. -/
theorem build_meta_spec_witness :
    DictAsObject.build_meta exFallbackHeap exWrapper =
      some (heapSetKey (exFallbackHeap.alloc
          [("CONTENT_TYPE".data, PyVal.vstr "text/plain".data),
           ("QUERY_STRING".data, PyVal.vstr "q=1".data)]).1 exWrapper.scope
        "META".data (PyVal.vref (exFallbackHeap.alloc
          [("CONTENT_TYPE".data, PyVal.vstr "text/plain".data),
           ("QUERY_STRING".data, PyVal.vstr "q=1".data)]).2)) ∧
    dictLookup [("CONTENT_TYPE".data, PyVal.vstr "text/plain".data),
        ("QUERY_STRING".data, PyVal.vstr "q=1".data)] "QUERY_STRING".data =
      some (PyVal.vstr "q=1".data) :=
  ⟨(build_meta_spec exFallbackHeap exWrapper (exFallbackHeap.getD 1)
      [("CONTENT_TYPE".data, PyVal.vstr "text/plain".data),
       ("QUERY_STRING".data, PyVal.vstr "q=1".data)]
      [("content-type".data.map Char.toNat, "text/html".data.map Char.toNat),
       ("content-type".data.map Char.toNat, "text/plain".data.map Char.toNat)]
      "q=1".data rfl (Or.inl rfl)
      (Or.inl ⟨"q=1".data.map Char.toNat, rfl, by decide⟩)
      (by decide) (by decide) (by decide)).1,
    (build_meta_spec exFallbackHeap exWrapper (exFallbackHeap.getD 1)
      [("CONTENT_TYPE".data, PyVal.vstr "text/plain".data),
       ("QUERY_STRING".data, PyVal.vstr "q=1".data)]
      [("content-type".data.map Char.toNat, "text/html".data.map Char.toNat),
       ("content-type".data.map Char.toNat, "text/plain".data.map Char.toNat)]
      "q=1".data rfl (Or.inl rfl)
      (Or.inl ⟨"q=1".data.map Char.toNat, rfl, by decide⟩)
      (by decide) (by decide) (by decide)).2.1⟩

/-! ### Claim C6 helper lemmas. -/

theorem splitScheme_slash (rest d : Str) :
    splitScheme ('/' :: rest) d = (d, '/' :: rest) := by
  have hh : headIsAsciiAlpha ('/' :: rest) = false := rfl
  unfold splitScheme
  cases hf : ('/' :: rest).findIdx? (fun c => c = ':') with
  | none => rfl
  | some i => simp [hh]

theorem splitAtFirst_cons_ne (c x : Char) (l : Str) (h : ¬ x = c) :
    splitAtFirst c (x :: l) =
      (x :: (splitAtFirst c l).1, (splitAtFirst c l).2) := by
  cases hsp : splitAtFirst c l with
  | mk a b => simp [splitAtFirst, h, hsp]

theorem splitAtFirst_fst_initSegment (c : Char) (l : Str) :
    ∃ t, (splitAtFirst c l).1 ++ t = l := by
  induction l with
  | nil => exact ⟨[], rfl⟩
  | cons x xs ih =>
    by_cases hx : x = c
    · refine ⟨x :: xs, ?_⟩
      simp [splitAtFirst, hx]
    · obtain ⟨t, ht⟩ := ih
      refine ⟨t, ?_⟩
      rw [splitAtFirst_cons_ne c x xs hx]
      simp [ht]

theorem isPrefixOf_append_left (n a t : Str) (h : n.isPrefixOf a = true) :
    n.isPrefixOf (a ++ t) = true := by
  induction n generalizing a with
  | nil => simp [List.isPrefixOf]
  | cons c ns ih =>
    cases a with
    | nil => simp [List.isPrefixOf] at h
    | cons b as =>
      simp only [List.isPrefixOf, Bool.and_eq_true, beq_iff_eq] at h
      simp only [List.cons_append, List.isPrefixOf, Bool.and_eq_true, beq_iff_eq]
      exact ⟨h.1, ih as h.2⟩

theorem listSubstr_append_of_left (n a t : Str) (h : listSubstr n a = true) :
    listSubstr n (a ++ t) = true := by
  induction a with
  | nil =>
    have hn : n = [] := by
      cases n with
      | nil => rfl
      | cons c cs => simp [listSubstr] at h
    subst hn
    cases t with
    | nil => rfl
    | cons x xs => simp [listSubstr, List.isPrefixOf]
  | cons x xs ih =>
    simp only [listSubstr, Bool.or_eq_true] at h
    rcases h with h | h
    · simp only [List.cons_append, listSubstr, Bool.or_eq_true]
      exact Or.inl (isPrefixOf_append_left n (x :: xs) t h)
    · simp only [List.cons_append, listSubstr, Bool.or_eq_true]
      exact Or.inr (ih h)

theorem listSubstr_prefix_false (n a t : Str) (h : listSubstr n (a ++ t) = false) :
    listSubstr n a = false := by
  cases hb : listSubstr n a with
  | false => rfl
  | true =>
    rw [listSubstr_append_of_left n a t hb] at h
    simp at h

/-- `urlsplit` on the `"//" + full_path` location built for a slash-led
full path: no scheme, empty netloc, and the path is the full path cut at
the first `#` and then the first `?`. -/
theorem urlsplit_of_slash3 (fp2 : Str) :
    urlsplitWith ('/' :: '/' :: '/' :: fp2) [] =
      ⟨[], [],
       (splitAtFirst '?' (splitAtFirst '#' ('/' :: fp2)).1).1,
       ((splitAtFirst '?' (splitAtFirst '#' ('/' :: fp2)).1).2).getD [],
       ((splitAtFirst '#' ('/' :: fp2)).2).getD []⟩ := by
  simp only [urlsplitWith, splitScheme_slash]
  have hnl : ('/' :: fp2).takeWhile (fun c => !netlocStop c) = [] := by
    simp [List.takeWhile_cons, netlocStop]
  simp [hnl]

/-- Characters kept verbatim by `iri_to_uri` stay verbatim. -/
theorem iri_to_uri_of_safe (s : Str) (h : allUriSafe s = true) :
    iri_to_uri s = s := by
  induction s with
  | nil => rfl
  | cons c cs ih =>
    simp only [allUriSafe, List.all_cons, Bool.and_eq_true] at h
    have hc : quoteChar iriSafe c = [c] := by
      unfold quoteChar
      rw [if_pos h.1]
    show pyQuote iriSafe (c :: cs) = c :: cs
    simp only [pyQuote, List.flatMap_cons, hc]
    have := ih h.2
    simp only [allUriSafe] at this ⊢
    simpa [iri_to_uri, pyQuote] using this

/-! ### Claim C6. -/

/-- C6 counterexample: with the scope path `/a/../b` the no-location call
does not return the current scheme and host joined with the full path
(`https://example.com/a/../b`); the dot segments fail the cheap-path test
and the location is url-joined instead, resolving `..` and producing
`https://example.com/b`. -/
theorem build_absolute_uri_dot_counterexample :
    DictAsObject.get_full_path exDotHeap exWrapper false = some "/a/../b".data ∧
    DictAsObject.currentSchemeHost exSettings exDotHeap exWrapper =
      some "https://example.com".data ∧
    DictAsObject.build_absolute_uri exSettings exDotHeap exWrapper none =
      some "https://example.com/b".data ∧
    ¬ some "https://example.com/b".data =
        some ("https://example.com".data ++ "/a/../b".data) := by
  refine ⟨rfl, rfl, rfl, by decide⟩

/-- C6 (amended): `build_absolute_uri` composes an absolute URI by cases:
with no location and a slash-led full path free of `/./` and `/../`
segments, it returns the current scheme and host joined with the full path
(through `iri_to_uri`, which is the identity on URI-safe text); a location
with both a scheme and a netloc is returned converted to an RFC 3987
compliant URI; an absolute path location without dot segments is appended
to the current scheme and host; every other location is url-joined against
the current scheme, host and path. -/
theorem build_absolute_uri_cases (st : Settings) (h : Heap) (w : DictAsObject)
    (fp S p : Str)
    (hfp : DictAsObject.get_full_path h w false = some fp)
    (hS : DictAsObject.currentSchemeHost st h w = some S)
    (hp : DictAsObject.pathAttr h w = some p) :
    (fp.head? = some '/' →
      listSubstr "/./".data fp = false → listSubstr "/../".data fp = false →
      DictAsObject.build_absolute_uri st h w none = some (iri_to_uri (S ++ fp))) ∧
    (fp.head? = some '/' →
      listSubstr "/./".data fp = false → listSubstr "/../".data fp = false →
      allUriSafe (S ++ fp) = true →
      DictAsObject.build_absolute_uri st h w none = some (S ++ fp)) ∧
    (∀ loc, (urlsplitWith loc []).scheme.isEmpty = false →
      (urlsplitWith loc []).netloc.isEmpty = false →
      DictAsObject.build_absolute_uri st h w (some loc) = some (iri_to_uri loc)) ∧
    (∀ loc, (urlsplitWith loc []).scheme = [] →
      (urlsplitWith loc []).netloc = [] →
      headIs '/' (urlsplitWith loc []).path = true →
      listSubstr "/./".data (urlsplitWith loc []).path = false →
      listSubstr "/../".data (urlsplitWith loc []).path = false →
      DictAsObject.build_absolute_uri st h w (some loc) =
        some (iri_to_uri (S ++ dropDoubleSlash loc))) ∧
    (∀ loc,
      ((urlsplitWith loc []).scheme.isEmpty ||
        (urlsplitWith loc []).netloc.isEmpty) = true →
      (headIs '/' (urlsplitWith loc []).path &&
        (urlsplitWith loc []).scheme.isEmpty &&
        (urlsplitWith loc []).netloc.isEmpty &&
        !listSubstr "/./".data (urlsplitWith loc []).path &&
        !listSubstr "/../".data (urlsplitWith loc []).path) = false →
      DictAsObject.build_absolute_uri st h w (some loc) =
        some (iri_to_uri (urljoin (S ++ p) loc))) := by
  have case1 : fp.head? = some '/' →
      listSubstr "/./".data fp = false → listSubstr "/../".data fp = false →
      DictAsObject.build_absolute_uri st h w none = some (iri_to_uri (S ++ fp)) := by
    intro hhead h1 h2
    obtain ⟨fp2, rfl⟩ : ∃ fp2, fp = '/' :: fp2 := by
      cases fp with
      | nil => simp at hhead
      | cons c t =>
        obtain rfl : c = '/' := by simpa using hhead
        exact ⟨t, rfl⟩
    obtain ⟨t1, ht1⟩ := splitAtFirst_fst_initSegment '#' ('/' :: fp2)
    obtain ⟨t2, ht2⟩ := splitAtFirst_fst_initSegment '?'
      (splitAtFirst '#' ('/' :: fp2)).1
    have hPfp : (splitAtFirst '?' (splitAtFirst '#' ('/' :: fp2)).1).1 ++
        (t2 ++ t1) = '/' :: fp2 := by
      rw [← List.append_assoc, ht2, ht1]
    have h1' := h1
    have h2' := h2
    rw [← hPfp] at h1' h2'
    have hP1 := listSubstr_prefix_false _ _ _ h1'
    have hP2 := listSubstr_prefix_false _ _ _ h2'
    have hPhead : headIs '/'
        (splitAtFirst '?' (splitAtFirst '#' ('/' :: fp2)).1).1 = true := by
      rw [splitAtFirst_cons_ne '#' '/' fp2 (by decide),
        splitAtFirst_cons_ne '?' '/' _ (by decide)]
      rfl
    simp [DictAsObject.build_absolute_uri, hfp, urlsplit_of_slash3, hS,
      hPhead, hP1, hP2, dropDoubleSlash]
  refine ⟨case1, ?_, ?_, ?_, ?_⟩
  · intro hhead h1 h2 hsafe
    rw [case1 hhead h1 h2, iri_to_uri_of_safe _ hsafe]
  · intro loc h1 h2
    have hnc : ¬ (((urlsplitWith loc []).scheme.isEmpty ||
        (urlsplitWith loc []).netloc.isEmpty) = true) := by
      rw [h1, h2]
      simp
    simp only [DictAsObject.build_absolute_uri, Option.bind_eq_bind,
      Option.some_bind]
    rw [if_neg hnc]
    rfl
  · intro loc h1 h2 h3 h4 h5
    simp [DictAsObject.build_absolute_uri, h1, h2, h3, h4, h5, hS]
  · intro loc h1 h2
    have hni : ¬ ((headIs '/' (urlsplitWith loc []).path &&
        (urlsplitWith loc []).scheme.isEmpty &&
        (urlsplitWith loc []).netloc.isEmpty &&
        !listSubstr "/./".data (urlsplitWith loc []).path &&
        !listSubstr "/../".data (urlsplitWith loc []).path) = true) := by
      rw [h2]
      simp
    simp only [DictAsObject.build_absolute_uri, Option.bind_eq_bind,
      Option.some_bind]
    rw [if_pos h1, if_neg hni]
    simp [hS, hp]

/-- C6 witness: on the example scope (`/graphql` with query `q=1`) the
no-location call returns the scheme and host joined with the full path. -/
theorem build_absolute_uri_cases_witness :
    DictAsObject.build_absolute_uri exSettings exHeap exWrapper none =
      some (iri_to_uri ("https://example.com".data ++ "/graphql?q=1".data)) :=
  (build_absolute_uri_cases exSettings exHeap exWrapper "/graphql?q=1".data
    "https://example.com".data "/graphql".data rfl rfl rfl).1
    (by decide) (by decide) (by decide)

end DictAsObjectModel
